import Mathlib

/-!
Verification of the bounded realtime sample-accumulation protocol of
`src/recorder/recorder.cpp` (a PortAudio/libsndfile WAV recorder).

The embedding models:

- `RecordData` — the `RecordData` struct (sample buffer, recording flag,
  `maxSamples` bound);
- `recordCallback` — the PortAudio producer callback (lines 24-56), with the
  `size_t`/`unsigned long` arithmetic of the limit check taken modulo `2 ^ 64`
  exactly as on an LP64 machine;
- `stepRun`/`runCallbacks`/`runTrace` — a capture run: a sequence of callback
  invocations, each optionally preceded by the external stop signal
  (`data.recording = false`, line 110) raised by the orchestration thread;
- `FloatVec`/`recordCallbackVec`/`runVec` — the same callback instrumented with
  the capacity of the underlying `std::vector<float>`, to reason about
  reallocation (the `reserve` on line 77);
- `MainEnv`/`mainRun` — the exit-code and diagnostic decision structure of
  `main` (lines 70-158).

Samples are an arbitrary type with a zero element (the code only copies
32-bit floats and pushes the literal `0.0f`; it never computes with them).
An input buffer is a pointer, modelled as `Nat → α` (the value at each offset);
a NULL pointer is `none`.

Theorems that quantify over `framesPerBuffer` or over buffer contents carry
machine-realizability bounds (`framesPerBuffer < 2 ^ 63`,
`maxSamples ≤ 2 ^ 63`): a C invocation outside these bounds cannot occur,
since a real input buffer of that many 4-byte floats does not fit in a 64-bit
address space and `std::vector::push_back` cannot succeed that many times.
Inside the bounds the model follows the source exactly, including the
unsigned wrap-around of the limit arithmetic.
-/

set_option maxHeartbeats 1000000

namespace Recorder

/-- Modulus of the 64-bit unsigned arithmetic (`unsigned long` / `size_t`)
used by the recorder on an LP64 platform. -/
def U64MOD : Nat := 2 ^ 64

/-- Result signal returned by a PortAudio stream callback: `paContinue` keeps
the stream running, `paComplete` tells the transport to stop after this
buffer (recorder.cpp line 55). -/
inductive PaCallbackResult where
  | paContinue
  | paComplete
deriving DecidableEq

/-- The `RecordData` struct (recorder.cpp lines 17-21): the sample buffer, the
"still recording" flag and the `maxSamples` bound. Field defaults mirror the
in-class initializers (`recording = true`, `maxSamples = 0`). -/
structure RecordData (α : Type) where
  recordedSamples : List α
  recording : Bool := true
  maxSamples : Nat := 0

/-- The limit check of recorder.cpp line 36:
`recordedSamples.size() + framesPerBuffer > maxSamples && maxSamples > 0`,
with the `size_t` addition taken modulo `2 ^ 64`. -/
def limitHit {α : Type} (data : RecordData α) (framesPerBuffer : Nat) : Prop :=
  data.maxSamples < (data.recordedSamples.length + framesPerBuffer) % U64MOD
    ∧ 0 < data.maxSamples

instance {α : Type} (data : RecordData α) (framesPerBuffer : Nat) :
    Decidable (limitHit data framesPerBuffer) :=
  inferInstanceAs (Decidable (data.maxSamples <
    (data.recordedSamples.length + framesPerBuffer) % U64MOD ∧ 0 < data.maxSamples))

/-- The clamped number of frames one invocation appends (recorder.cpp lines
31 and 36-39): `framesPerBuffer`, lowered to the unsigned difference
`maxSamples - recordedSamples.size()` when the limit check fires. -/
def framesToRecord {α : Type} (data : RecordData α) (framesPerBuffer : Nat) : Nat :=
  if limitHit data framesPerBuffer
  then (data.maxSamples + U64MOD - data.recordedSamples.length) % U64MOD
  else framesPerBuffer

/-- The frames appended by one invocation (recorder.cpp lines 42-52):
`n` zeros when the input pointer is NULL, otherwise the first `n` samples
read in order from the input pointer. -/
def capturedFrames {α : Type} [Zero α] (inputBuffer : Option (Nat → α))
    (n : Nat) : List α :=
  match inputBuffer with
  | none => List.replicate n 0
  | some rptr => (List.range n).map rptr

/-- The PortAudio producer callback `recordCallback` (recorder.cpp lines
24-56): clamp the frame count and force the flag false when the limit check
fires, append the frames (zeros for a NULL input), and return `paContinue`
or `paComplete` from the flag as it stands at the end of the invocation. -/
def recordCallback {α : Type} [Zero α] (inputBuffer : Option (Nat → α))
    (framesPerBuffer : Nat) (data : RecordData α) :
    RecordData α × PaCallbackResult :=
  let stillRecording := if limitHit data framesPerBuffer then false else data.recording
  ({ recordedSamples :=
        data.recordedSamples ++ capturedFrames inputBuffer (framesToRecord data framesPerBuffer),
     recording := stillRecording,
     maxSamples := data.maxSamples },
   if stillRecording then PaCallbackResult.paContinue else PaCallbackResult.paComplete)

/-- One scheduled invocation of the callback by the transport: whether the
orchestration thread raised the external stop signal since the previous
invocation (recorder.cpp line 110), the input pointer PortAudio passes
(`none` = NULL), and the frame count of this delivery. -/
structure CallbackInput (α : Type) where
  stopSignal : Bool
  inputBuffer : Option (Nat → α)
  framesPerBuffer : Nat

/-- Effect of the external stop signal before an invocation: the orchestration
thread only ever writes `false` to the flag (recorder.cpp line 110). -/
def applyStop {α : Type} (c : CallbackInput α) (d : RecordData α) : RecordData α :=
  if c.stopSignal then { d with recording := false } else d

/-- One step of a capture run: the possible external stop, then the callback. -/
def stepRun {α : Type} [Zero α] (d : RecordData α) (c : CallbackInput α) :
    RecordData α × PaCallbackResult :=
  recordCallback c.inputBuffer c.framesPerBuffer (applyStop c d)

/-- The state after a sequence of scheduled invocations. -/
def runCallbacks {α : Type} [Zero α] (d : RecordData α) :
    List (CallbackInput α) → RecordData α
  | [] => d
  | c :: cs => runCallbacks (stepRun d c).1 cs

/-- The results returned by each invocation of a capture run, in order. -/
def runTrace {α : Type} [Zero α] (d : RecordData α) :
    List (CallbackInput α) → List PaCallbackResult
  | [] => []
  | c :: cs => (stepRun d c).2 :: runTrace (stepRun d c).1 cs

/-- `SAMPLE_RATE` (recorder.cpp line 10). -/
def SAMPLE_RATE : Nat := 44100

/-- `FRAMES_PER_BUFFER` (recorder.cpp line 11). -/
def FRAMES_PER_BUFFER : Nat := 512

/-- `NUM_SECONDS` (recorder.cpp line 12). -/
def NUM_SECONDS : Nat := 5

/-- `NUM_CHANNELS` (recorder.cpp line 13). -/
def NUM_CHANNELS : Nat := 1

/-- `totalFrames = NUM_SECONDS * SAMPLE_RATE` (recorder.cpp line 75). -/
def totalFrames : Nat := NUM_SECONDS * SAMPLE_RATE

/-- `data.maxSamples = totalFrames * NUM_CHANNELS` as set by `main`
(recorder.cpp line 76); equals 220500. -/
def mainMaxSamples : Nat := totalFrames * NUM_CHANNELS

/-- The `RecordData` value `main` starts the stream with: empty buffer, flag
true, bound `maxSamples` (recorder.cpp lines 74-77). -/
def initialData (α : Type) (maxSamples : Nat) : RecordData α :=
  { recordedSamples := [], recording := true, maxSamples := maxSamples }

theorem mainMaxSamples_eq : mainMaxSamples = 220500 := by
  norm_num [mainMaxSamples, totalFrames, NUM_SECONDS, SAMPLE_RATE, NUM_CHANNELS]

theorem capturedFrames_length {α : Type} [Zero α] (i : Option (Nat → α)) (n : Nat) :
    (capturedFrames i n).length = n := by
  cases i <;> simp [capturedFrames]

theorem capturedFrames_zero {α : Type} [Zero α] (i : Option (Nat → α)) :
    capturedFrames i 0 = [] := by
  cases i <;> simp [capturedFrames]

theorem recordCallback_fst_samples {α : Type} [Zero α] (i : Option (Nat → α))
    (fpb : Nat) (d : RecordData α) :
    (recordCallback i fpb d).1.recordedSamples
      = d.recordedSamples ++ capturedFrames i (framesToRecord d fpb) := rfl

theorem recordCallback_fst_recording {α : Type} [Zero α] (i : Option (Nat → α))
    (fpb : Nat) (d : RecordData α) :
    (recordCallback i fpb d).1.recording
      = if limitHit d fpb then false else d.recording := rfl

theorem recordCallback_fst_maxSamples {α : Type} [Zero α] (i : Option (Nat → α))
    (fpb : Nat) (d : RecordData α) :
    (recordCallback i fpb d).1.maxSamples = d.maxSamples := rfl

theorem recordCallback_snd {α : Type} [Zero α] (i : Option (Nat → α))
    (fpb : Nat) (d : RecordData α) :
    (recordCallback i fpb d).2
      = if (recordCallback i fpb d).1.recording
        then PaCallbackResult.paContinue else PaCallbackResult.paComplete := by
  rw [recordCallback_fst_recording]; rfl

theorem U64MOD_eq : U64MOD = 18446744073709551616 := by norm_num [U64MOD]

theorem two_pow_63_eq : (2 : Nat) ^ 63 = 9223372036854775808 := by norm_num

/-- Under the machine bounds the `size_t` addition of the limit check does
not wrap, so the check is the plain comparison. -/
theorem limitHit_iff {α : Type} (d : RecordData α) (fpb : Nat)
    (hmax : d.maxSamples ≤ 2 ^ 63)
    (hlen : d.recordedSamples.length ≤ d.maxSamples) (hfpb : fpb < 2 ^ 63) :
    limitHit d fpb
      ↔ (d.maxSamples < d.recordedSamples.length + fpb ∧ 0 < d.maxSamples) := by
  have hov : d.recordedSamples.length + fpb < U64MOD := by
    have h63 := two_pow_63_eq
    have h64 := U64MOD_eq
    omega
  unfold limitHit
  rw [Nat.mod_eq_of_lt hov]

/-- Under the machine bounds the clamped frame count is
`min framesPerBuffer (maxSamples - length)` — except that a zero bound
disables the clamp entirely. -/
theorem framesToRecord_eq {α : Type} (d : RecordData α) (fpb : Nat)
    (hmax0 : 0 < d.maxSamples) (hmax : d.maxSamples ≤ 2 ^ 63)
    (hlen : d.recordedSamples.length ≤ d.maxSamples) (hfpb : fpb < 2 ^ 63) :
    framesToRecord d fpb = min fpb (d.maxSamples - d.recordedSamples.length) := by
  have h63 := two_pow_63_eq
  have h64 := U64MOD_eq
  unfold framesToRecord
  by_cases h : limitHit d fpb
  · rw [if_pos h]
    have hlt := (limitHit_iff d fpb hmax hlen hfpb).mp h
    have h1 : d.maxSamples + U64MOD - d.recordedSamples.length
        = (d.maxSamples - d.recordedSamples.length) + U64MOD := by omega
    rw [h1, Nat.add_mod_right, Nat.mod_eq_of_lt (by omega)]
    omega
  · rw [if_neg h]
    have hle : ¬(d.maxSamples < d.recordedSamples.length + fpb ∧ 0 < d.maxSamples) :=
      fun hc => h ((limitHit_iff d fpb hmax hlen hfpb).mpr hc)
    omega

/-- Master characterization of one callback invocation under the machine
bounds: the new length is `min (length + framesPerBuffer) maxSamples`, the
flag survives exactly when the delivery fits, and the bound is unchanged. -/
theorem recordCallback_spec {α : Type} [Zero α] (i : Option (Nat → α))
    (fpb : Nat) (d : RecordData α)
    (hmax0 : 0 < d.maxSamples) (hmax : d.maxSamples ≤ 2 ^ 63)
    (hlen : d.recordedSamples.length ≤ d.maxSamples) (hfpb : fpb < 2 ^ 63) :
    (recordCallback i fpb d).1.recordedSamples.length
        = min (d.recordedSamples.length + fpb) d.maxSamples
    ∧ (recordCallback i fpb d).1.recording
        = (if d.recordedSamples.length + fpb ≤ d.maxSamples then d.recording else false)
    ∧ (recordCallback i fpb d).1.maxSamples = d.maxSamples := by
  refine ⟨?_, ?_, rfl⟩
  · rw [recordCallback_fst_samples, List.length_append, capturedFrames_length,
      framesToRecord_eq d fpb hmax0 hmax hlen hfpb]
    omega
  · rw [recordCallback_fst_recording]
    by_cases h : limitHit d fpb
    · have hlt := (limitHit_iff d fpb hmax hlen hfpb).mp h
      rw [if_pos h, if_neg (by omega)]
    · have hle : ¬(d.maxSamples < d.recordedSamples.length + fpb ∧ 0 < d.maxSamples) :=
        fun hc => h ((limitHit_iff d fpb hmax hlen hfpb).mpr hc)
      rw [if_neg h, if_pos (by omega)]

theorem applyStop_recordedSamples {α : Type} (c : CallbackInput α) (d : RecordData α) :
    (applyStop c d).recordedSamples = d.recordedSamples := by
  unfold applyStop; split <;> rfl

theorem applyStop_maxSamples {α : Type} (c : CallbackInput α) (d : RecordData α) :
    (applyStop c d).maxSamples = d.maxSamples := by
  unfold applyStop; split <;> rfl

theorem applyStop_recording_mono {α : Type} (c : CallbackInput α) (d : RecordData α)
    (h : (applyStop c d).recording = true) : d.recording = true := by
  unfold applyStop at h; split at h
  · exact absurd h (by simp)
  · exact h

theorem applyStop_recording_false {α : Type} (c : CallbackInput α) (d : RecordData α)
    (h : d.recording = false) : (applyStop c d).recording = false := by
  unfold applyStop; split
  · rfl
  · exact h

theorem recordCallback_recording_mono {α : Type} [Zero α] (i : Option (Nat → α))
    (fpb : Nat) (d : RecordData α)
    (h : (recordCallback i fpb d).1.recording = true) : d.recording = true := by
  rw [recordCallback_fst_recording] at h
  split at h
  · exact absurd h (by simp)
  · exact h

theorem recordCallback_recording_false {α : Type} [Zero α] (i : Option (Nat → α))
    (fpb : Nat) (d : RecordData α) (h : d.recording = false) :
    (recordCallback i fpb d).1.recording = false := by
  rw [recordCallback_fst_recording]
  split
  · rfl
  · exact h

theorem recordCallback_complete_iff {α : Type} [Zero α] (i : Option (Nat → α))
    (fpb : Nat) (d : RecordData α) :
    (recordCallback i fpb d).2 = PaCallbackResult.paComplete
      ↔ (recordCallback i fpb d).1.recording = false := by
  rw [recordCallback_snd]
  cases hb : (recordCallback i fpb d).1.recording <;> simp

theorem stepRun_recording_mono {α : Type} [Zero α] (d : RecordData α)
    (c : CallbackInput α) (h : (stepRun d c).1.recording = true) :
    d.recording = true :=
  applyStop_recording_mono c d
    (recordCallback_recording_mono c.inputBuffer c.framesPerBuffer (applyStop c d) h)

theorem stepRun_recording_false {α : Type} [Zero α] (d : RecordData α)
    (c : CallbackInput α) (h : d.recording = false) :
    (stepRun d c).1.recording = false :=
  recordCallback_recording_false c.inputBuffer c.framesPerBuffer (applyStop c d)
    (applyStop_recording_false c d h)

theorem runTrace_all_complete {α : Type} [Zero α] :
    ∀ (cs : List (CallbackInput α)) (d : RecordData α), d.recording = false →
      ∀ r ∈ runTrace d cs, r = PaCallbackResult.paComplete := by
  intro cs
  induction cs with
  | nil => intro d _ r hr; exact absurd hr (by simp [runTrace])
  | cons c cs ih =>
    intro d hd r hr
    rw [runTrace] at hr
    rcases List.mem_cons.mp hr with h | h
    · subst h
      exact (recordCallback_complete_iff c.inputBuffer c.framesPerBuffer (applyStop c d)).mpr
        (recordCallback_recording_false c.inputBuffer c.framesPerBuffer (applyStop c d)
          (applyStop_recording_false c d hd))
    · exact ih (stepRun d c).1 (stepRun_recording_false d c hd) r h

theorem runCallbacks_invariant {α : Type} [Zero α] (inputs : List (CallbackInput α)) :
    ∀ d : RecordData α, 0 < d.maxSamples → d.maxSamples ≤ 2 ^ 63 →
      d.recordedSamples.length ≤ d.maxSamples →
      (∀ c ∈ inputs, c.framesPerBuffer < 2 ^ 63) →
      (runCallbacks d inputs).recordedSamples.length ≤ d.maxSamples
      ∧ (runCallbacks d inputs).maxSamples = d.maxSamples := by
  induction inputs with
  | nil => intro d _ _ h2 _; exact ⟨h2, rfl⟩
  | cons c cs ih =>
    intro d h0 h1 h2 hb
    have hsr := applyStop_recordedSamples c d
    have hsm := applyStop_maxSamples c d
    have hspec := recordCallback_spec c.inputBuffer c.framesPerBuffer (applyStop c d)
      (by rw [hsm]; exact h0) (by rw [hsm]; exact h1) (by rw [hsr, hsm]; exact h2)
      (hb c (List.mem_cons_self c cs))
    have hmax' : (stepRun d c).1.maxSamples = d.maxSamples := by
      show (recordCallback c.inputBuffer c.framesPerBuffer (applyStop c d)).1.maxSamples = _
      rw [recordCallback_fst_maxSamples, hsm]
    have hlen' : (stepRun d c).1.recordedSamples.length ≤ d.maxSamples := by
      show (recordCallback c.inputBuffer c.framesPerBuffer (applyStop c d)).1.recordedSamples.length ≤ _
      rw [hspec.1, hsm]
      omega
    have hrun : runCallbacks d (c :: cs) = runCallbacks (stepRun d c).1 cs := rfl
    rw [hrun]
    have := ih (stepRun d c).1 (by rw [hmax']; exact h0) (by rw [hmax']; exact h1)
      (by rw [hmax']; exact hlen')
      (fun c' hc' => hb c' (List.mem_cons_of_mem c hc'))
    rw [hmax'] at this
    exact this

theorem runCallbacks_append {α : Type} [Zero α] (xs ys : List (CallbackInput α)) :
    ∀ d : RecordData α, runCallbacks d (xs ++ ys) = runCallbacks (runCallbacks d xs) ys := by
  induction xs with
  | nil => intro d; rfl
  | cons c cs ih => intro d; rw [List.cons_append, runCallbacks, runCallbacks, ih]

theorem runTrace_append {α : Type} [Zero α] (xs ys : List (CallbackInput α)) :
    ∀ d : RecordData α,
      runTrace d (xs ++ ys) = runTrace d xs ++ runTrace (runCallbacks d xs) ys := by
  induction xs with
  | nil => intro d; rfl
  | cons c cs ih =>
    intro d
    rw [List.cons_append, runTrace, runTrace, ih, runCallbacks, List.cons_append]

/-- C1: for every sequence of producer-callback invocations starting from the
empty buffer with `maxSamples = NUM_SECONDS * SAMPLE_RATE * NUM_CHANNELS`
(= 220500), and for any machine-realizable `framesPerBuffer` of each delivery
and any input buffers (present or absent), the recorded sample buffer never
holds more than `maxSamples` samples. The run quantifies over all finite
invocation sequences, so the bound holds after every invocation. -/
theorem C1_sample_buffer_bounded {α : Type} [Zero α]
    (inputs : List (CallbackInput α))
    (hb : ∀ c ∈ inputs, c.framesPerBuffer < 2 ^ 63) :
    (runCallbacks (initialData α mainMaxSamples) inputs).recordedSamples.length
        ≤ mainMaxSamples
    ∧ mainMaxSamples = 220500 := by
  refine ⟨?_, mainMaxSamples_eq⟩
  have h := runCallbacks_invariant inputs (initialData α mainMaxSamples)
    (by rw [mainMaxSamples_eq]; norm_num [initialData])
    (by rw [show (initialData α mainMaxSamples).maxSamples = mainMaxSamples from rfl,
          mainMaxSamples_eq, two_pow_63_eq]; norm_num)
    (by simp [initialData]) hb
  exact h.1

theorem C1_sample_buffer_bounded_witness :
    (runCallbacks (initialData Int mainMaxSamples)
        [⟨false, none, 512⟩, ⟨true, some (fun _ => 1), 512⟩]).recordedSamples.length
      ≤ mainMaxSamples :=
  (C1_sample_buffer_bounded [⟨false, none, 512⟩, ⟨true, some (fun _ => 1), 512⟩]
    (by
      intro c hc
      rcases List.mem_cons.mp hc with h | h
      · subst h; decide
      · rcases List.mem_cons.mp h with h' | h'
        · subst h'; decide
        · exact absurd h' (by simp))).1

/-- C7: when the input pointer is NULL the callback appends exactly
`framesToRecord` zero samples — the same clamped count as for a present
buffer (both branches of lines 42-52 run the loop `framesToRecord` times) —
never fewer. -/
theorem C7_null_input_appends_zeros {α : Type} [Zero α]
    (fpb : Nat) (d : RecordData α) :
    (recordCallback none fpb d).1.recordedSamples
        = d.recordedSamples ++ List.replicate (framesToRecord d fpb) (0 : α)
    ∧ (recordCallback none fpb d).1.recordedSamples.length
        = d.recordedSamples.length + framesToRecord d fpb
    ∧ ∀ rptr : Nat → α,
        (recordCallback (some rptr) fpb d).1.recordedSamples.length
          = (recordCallback none fpb d).1.recordedSamples.length := by
  refine ⟨?_, ?_, ?_⟩
  · rw [recordCallback_fst_samples]; rfl
  · rw [recordCallback_fst_samples, List.length_append, capturedFrames_length]
  · intro rptr
    rw [recordCallback_fst_samples, recordCallback_fst_samples,
      List.length_append, List.length_append, capturedFrames_length,
      capturedFrames_length]

/-- C8: one invocation only appends: the prior buffer is an initial segment of
the new buffer (taking the old length back out of the new buffer returns the
old buffer unchanged), the new buffer is the old buffer followed by the
captured frames, and when the input is present the appended frames are the
first `framesToRecord` input samples in input order. -/
theorem C8_append_only {α : Type} [Zero α] (i : Option (Nat → α))
    (fpb : Nat) (d : RecordData α) :
    (recordCallback i fpb d).1.recordedSamples
        = d.recordedSamples ++ capturedFrames i (framesToRecord d fpb)
    ∧ (recordCallback i fpb d).1.recordedSamples.take d.recordedSamples.length
        = d.recordedSamples
    ∧ ∀ rptr : Nat → α,
        (recordCallback (some rptr) fpb d).1.recordedSamples
          = d.recordedSamples ++ (List.range (framesToRecord d fpb)).map rptr := by
  refine ⟨recordCallback_fst_samples i fpb d, ?_, ?_⟩
  · rw [recordCallback_fst_samples]
    exact List.take_left d.recordedSamples _
  · intro rptr
    rw [recordCallback_fst_samples]; rfl

/-- C10: the "still recording" flag is monotone: neither the callback nor the
external stop path ever writes `true` back into it, an invocation returns
`paComplete` exactly when the flag is false at its end, and once the flag is
false (hence once any invocation has returned `paComplete`) every later
invocation, for any frame count and input, also returns `paComplete`. -/
theorem C10_flag_monotone {α : Type} [Zero α] :
    (∀ (i : Option (Nat → α)) (fpb : Nat) (d : RecordData α),
        (recordCallback i fpb d).1.recording = true → d.recording = true)
    ∧ (∀ (d : RecordData α) (c : CallbackInput α),
        (stepRun d c).1.recording = true → d.recording = true)
    ∧ (∀ (i : Option (Nat → α)) (fpb : Nat) (d : RecordData α),
        (recordCallback i fpb d).2 = PaCallbackResult.paComplete
          ↔ (recordCallback i fpb d).1.recording = false)
    ∧ (∀ (d : RecordData α) (cs : List (CallbackInput α)),
        d.recording = false →
          ∀ r ∈ runTrace d cs, r = PaCallbackResult.paComplete)
    ∧ (∀ (d : RecordData α) (pre : List (CallbackInput α)) (c : CallbackInput α)
          (post : List (CallbackInput α)),
        (stepRun (runCallbacks d pre) c).2 = PaCallbackResult.paComplete →
          ∀ r ∈ runTrace (stepRun (runCallbacks d pre) c).1 post,
            r = PaCallbackResult.paComplete) := by
  refine ⟨recordCallback_recording_mono, stepRun_recording_mono,
    recordCallback_complete_iff, fun d cs h => runTrace_all_complete cs d h, ?_⟩
  intro d pre c post hc
  exact runTrace_all_complete post (stepRun (runCallbacks d pre) c).1
    ((recordCallback_complete_iff c.inputBuffer c.framesPerBuffer
      (applyStop c (runCallbacks d pre))).mp hc)

theorem C10_flag_monotone_witness :
    (recordCallback (α := Int) none 512
        { recordedSamples := [], recording := false, maxSamples := 220500 }).2
      = PaCallbackResult.paComplete :=
  ((C10_flag_monotone (α := Int)).2.2.1 none 512
    { recordedSamples := [], recording := false, maxSamples := 220500 }).mpr
    (by decide)

theorem recordCallback_continue_iff {α : Type} [Zero α] (i : Option (Nat → α))
    (fpb : Nat) (d : RecordData α) :
    (recordCallback i fpb d).2 = PaCallbackResult.paContinue
      ↔ (recordCallback i fpb d).1.recording = true := by
  rw [recordCallback_snd]
  cases hb : (recordCallback i fpb d).1.recording <;> simp

/-- A reachable callback state of the real configuration: 219988 samples
already recorded against the `maxSamples = 220500` bound, flag still true.
One more delivery of 512 frames fills the buffer to exactly the bound. -/
def exactFillData : RecordData Int :=
  { recordedSamples := List.replicate 219988 0, recording := true, maxSamples := 220500 }

theorem exactFillData_length : exactFillData.recordedSamples.length = 219988 := by
  rw [show exactFillData.recordedSamples = List.replicate 219988 0 from rfl,
    List.length_replicate]

theorem exactFillData_maxSamples : exactFillData.maxSamples = 220500 := rfl

theorem exactFillData_recording : exactFillData.recording = true := rfl

theorem exactFillData_not_limitHit : ¬ limitHit exactFillData 512 := by
  rw [limitHit_iff exactFillData 512
    (by rw [exactFillData_maxSamples, two_pow_63_eq]; norm_num)
    (by rw [exactFillData_length, exactFillData_maxSamples]; norm_num)
    (by rw [two_pow_63_eq]; norm_num)]
  rw [exactFillData_length, exactFillData_maxSamples]
  norm_num

theorem exactFillData_framesToRecord : framesToRecord exactFillData 512 = 512 := by
  unfold framesToRecord
  rw [if_neg exactFillData_not_limitHit]

/-- C2 fails as literally stated: when a delivery fills the buffer to exactly
`maxSamples` (length 219988 plus `framesPerBuffer = 512` equals 220500), the
limit check of line 36 does not fire, so the flag stays true and the callback
returns `paContinue` even though the bound has been reached by the buffer at
the end of the invocation — the claim requires `paComplete` there. -/
theorem C2_counterexample :
    ¬ (((recordCallback (some fun _ => (0 : Int)) 512 exactFillData).2
          = PaCallbackResult.paContinue)
        ↔ ((recordCallback (some fun _ => (0 : Int)) 512 exactFillData).1.recording = true
          ∧ (recordCallback
              (some fun _ => (0 : Int)) 512 exactFillData).1.recordedSamples.length
             < 220500)) := by
  have hnot := exactFillData_not_limitHit
  have hrec : (recordCallback (some fun _ => (0 : Int)) 512 exactFillData).1.recording
      = true := by
    rw [recordCallback_fst_recording, if_neg hnot, exactFillData_recording]
  have hres : (recordCallback (some fun _ => (0 : Int)) 512 exactFillData).2
      = PaCallbackResult.paContinue :=
    (recordCallback_continue_iff _ _ _).mpr hrec
  have hlen' : (recordCallback
      (some fun _ => (0 : Int)) 512 exactFillData).1.recordedSamples.length = 220500 := by
    rw [recordCallback_fst_samples, List.length_append, capturedFrames_length,
      exactFillData_length, exactFillData_framesToRecord]
  intro h
  have := (h.mp hres).2
  omega

/-- C2 (amended): the callback returns `paContinue` exactly when the flag is
still true at the end of the invocation — equivalently, exactly when the flag
was true on entry and the delivery fit without the limit check firing
(`length + framesPerBuffer ≤ maxSamples`). In the boundary case where the
delivery fills the buffer to exactly `maxSamples` the callback still returns
`paContinue`; only the next invocation reports `paComplete`. If the flag was
flipped false before the invocation, the invocation returns `paComplete` and
appends at most `framesPerBuffer` further samples. -/
theorem C2_return_signal {α : Type} [Zero α] (i : Option (Nat → α)) (fpb : Nat)
    (d : RecordData α)
    (hmax0 : 0 < d.maxSamples) (hmax : d.maxSamples ≤ 2 ^ 63)
    (hlen : d.recordedSamples.length ≤ d.maxSamples) (hfpb : fpb < 2 ^ 63) :
    ((recordCallback i fpb d).2 = PaCallbackResult.paContinue
        ↔ (recordCallback i fpb d).1.recording = true)
    ∧ ((recordCallback i fpb d).2 = PaCallbackResult.paContinue
        ↔ (d.recording = true ∧ d.recordedSamples.length + fpb ≤ d.maxSamples))
    ∧ (d.recording = false →
        (recordCallback i fpb d).2 = PaCallbackResult.paComplete
        ∧ (recordCallback i fpb d).1.recordedSamples.length
            ≤ d.recordedSamples.length + fpb) := by
  have hspec := recordCallback_spec i fpb d hmax0 hmax hlen hfpb
  refine ⟨recordCallback_continue_iff i fpb d, ?_, ?_⟩
  · rw [recordCallback_continue_iff i fpb d, hspec.2.1]
    by_cases h : d.recordedSamples.length + fpb ≤ d.maxSamples
    · rw [if_pos h]
      constructor
      · exact fun hr => ⟨hr, h⟩
      · exact fun hr => hr.1
    · rw [if_neg h]
      constructor
      · intro hf; exact absurd hf (by simp)
      · intro hr; exact absurd hr.2 h
  · intro hd
    constructor
    · exact (recordCallback_complete_iff i fpb d).mpr
        (recordCallback_recording_false i fpb d hd)
    · rw [hspec.1]; omega

theorem C2_return_signal_witness :
    (recordCallback (α := Int) none 512 (initialData Int mainMaxSamples)).2
      = PaCallbackResult.paContinue :=
  ((C2_return_signal none 512 (initialData Int mainMaxSamples)
      (by decide) (by decide) (by decide) (by decide)).2.1).mpr
    ⟨rfl, by decide⟩

/-- A full callback state of the real configuration: the buffer already holds
exactly `maxSamples = 220500` samples and the flag is still true. -/
def fullBufferData : RecordData Int :=
  { recordedSamples := List.replicate 220500 0, recording := true, maxSamples := 220500 }

theorem fullBufferData_length : fullBufferData.recordedSamples.length = 220500 := by
  rw [show fullBufferData.recordedSamples = List.replicate 220500 0 from rfl,
    List.length_replicate]

theorem fullBufferData_maxSamples : fullBufferData.maxSamples = 220500 := rfl

theorem fullBufferData_recording : fullBufferData.recording = true := rfl

/-- C3 fails as literally stated: with the buffer already full
(length = `maxSamples` = 220500) a delivery of `framesPerBuffer = 0` leaves
the limit check of line 36 unfired (`220500 + 0 > 220500` is false), so
nothing is appended but the flag is left true and the callback returns
`paContinue`, not the `paComplete` the claim demands for any
`framesPerBuffer`. -/
theorem C3_counterexample :
    (recordCallback (α := Int) none 0 fullBufferData).2
      ≠ PaCallbackResult.paComplete := by
  have hnot : ¬ limitHit fullBufferData 0 := by
    rw [limitHit_iff fullBufferData 0
      (by rw [fullBufferData_maxSamples, two_pow_63_eq]; norm_num)
      (by rw [fullBufferData_length, fullBufferData_maxSamples])
      (by rw [two_pow_63_eq]; norm_num)]
    rw [fullBufferData_length, fullBufferData_maxSamples]
    norm_num
  have hrec : (recordCallback (α := Int) none 0 fullBufferData).1.recording = true := by
    rw [recordCallback_fst_recording, if_neg hnot, fullBufferData_recording]
  have hres := (recordCallback_continue_iff (α := Int) none 0 fullBufferData).mpr hrec
  rw [hres]
  simp

/-- C3 (amended): once the buffer already holds `maxSamples` samples, any
invocation with a positive `framesPerBuffer` appends nothing, forces the flag
false and returns `paComplete`. (With `framesPerBuffer = 0` the invocation
still appends nothing, but leaves the flag untouched and so returns
`paContinue` while the flag is true.) -/
theorem C3_full_buffer_idempotent {α : Type} [Zero α] (i : Option (Nat → α))
    (fpb : Nat) (d : RecordData α)
    (hfull : d.recordedSamples.length = d.maxSamples) (hmax0 : 0 < d.maxSamples)
    (hmax : d.maxSamples ≤ 2 ^ 63) (hfpb1 : 1 ≤ fpb) (hfpb : fpb < 2 ^ 63) :
    (recordCallback i fpb d).1.recordedSamples = d.recordedSamples
    ∧ (recordCallback i fpb d).1.recording = false
    ∧ (recordCallback i fpb d).2 = PaCallbackResult.paComplete := by
  have hhit : limitHit d fpb :=
    (limitHit_iff d fpb hmax (by omega) hfpb).mpr ⟨by omega, hmax0⟩
  have hftr : framesToRecord d fpb = 0 := by
    rw [framesToRecord_eq d fpb hmax0 hmax (by omega) hfpb]
    omega
  have hrec : (recordCallback i fpb d).1.recording = false := by
    rw [recordCallback_fst_recording, if_pos hhit]
  refine ⟨?_, hrec, (recordCallback_complete_iff i fpb d).mpr hrec⟩
  rw [recordCallback_fst_samples, hftr, capturedFrames_zero, List.append_nil]

theorem C3_full_buffer_idempotent_witness :
    (recordCallback (α := Int) none 512
        { recordedSamples := [0, 0, 0], recording := true, maxSamples := 3 }).2
      = PaCallbackResult.paComplete :=
  (C3_full_buffer_idempotent none 512
      { recordedSamples := [0, 0, 0], recording := true, maxSamples := 3 }
      (by decide) (by decide) (by decide) (by decide) (by decide)).2.2

/-- C4: when a delivery would overshoot the bound
(`length + framesPerBuffer > maxSamples`, the bound positive as in `main`),
the callback appends exactly the remaining headroom
`maxSamples - length`, forces the flag false, and the buffer ends the
invocation at no more than `maxSamples` samples. -/
theorem C4_mid_buffer_clamp {α : Type} [Zero α] (i : Option (Nat → α))
    (fpb : Nat) (d : RecordData α)
    (hmax0 : 0 < d.maxSamples) (hmax : d.maxSamples ≤ 2 ^ 63)
    (hlen : d.recordedSamples.length ≤ d.maxSamples) (hfpb : fpb < 2 ^ 63)
    (hover : d.maxSamples < d.recordedSamples.length + fpb) :
    framesToRecord d fpb = d.maxSamples - d.recordedSamples.length
    ∧ (recordCallback i fpb d).1.recordedSamples.length
        = d.recordedSamples.length + (d.maxSamples - d.recordedSamples.length)
    ∧ (recordCallback i fpb d).1.recording = false
    ∧ (recordCallback i fpb d).1.recordedSamples.length ≤ d.maxSamples := by
  have hspec := recordCallback_spec i fpb d hmax0 hmax hlen hfpb
  have hftr : framesToRecord d fpb = d.maxSamples - d.recordedSamples.length := by
    rw [framesToRecord_eq d fpb hmax0 hmax hlen hfpb]
    omega
  refine ⟨hftr, ?_, ?_, ?_⟩
  · rw [hspec.1]; omega
  · rw [hspec.2.1, if_neg (by omega)]
  · rw [hspec.1]; omega

theorem C4_mid_buffer_clamp_witness :
    (recordCallback (α := Int) none 220501 (initialData Int mainMaxSamples)).1.recording
      = false :=
  (C4_mid_buffer_clamp none 220501 (initialData Int mainMaxSamples)
      (by decide) (by decide) (by decide) (by decide) (by decide)).2.2.1

theorem stepRun_no_stop {α : Type} [Zero α] (d : RecordData α) (c : CallbackInput α)
    (h : c.stopSignal = false) :
    stepRun d c = recordCallback c.inputBuffer c.framesPerBuffer d := by
  unfold stepRun applyStop
  rw [h]
  simp

/-- The invocation PortAudio delivers every buffer period in the scenario of
C5: no external stop, an input buffer present, `framesPerBuffer = 512`. -/
def fiveSecondInput : CallbackInput Int :=
  { stopSignal := false, inputBuffer := some fun _ => 0, framesPerBuffer := 512 }

theorem run_uniform512 :
    ∀ (k j : Nat), j + k ≤ 430 → ∀ d : RecordData Int,
      d.maxSamples = 220500 → d.recording = true →
      d.recordedSamples.length = 512 * j →
      (runCallbacks d (List.replicate k fiveSecondInput)).recordedSamples.length
          = 512 * (j + k)
      ∧ (runCallbacks d (List.replicate k fiveSecondInput)).maxSamples = 220500
      ∧ (runCallbacks d (List.replicate k fiveSecondInput)).recording = true := by
  intro k
  induction k with
  | zero =>
    intro j _ d hm hr hl
    rw [List.replicate_zero]
    refine ⟨?_, by rw [show runCallbacks d [] = d from rfl, hm],
      by rw [show runCallbacks d [] = d from rfl, hr]⟩
    rw [show runCallbacks d [] = d from rfl, hl]
    omega
  | succ k ih =>
    intro j h d hm hr hl
    have hspec := recordCallback_spec (some fun _ => (0 : Int)) 512 d
      (by rw [hm]; norm_num) (by rw [hm, two_pow_63_eq]; norm_num)
      (by rw [hl, hm]; omega) (by rw [two_pow_63_eq]; norm_num)
    have hstep : stepRun d fiveSecondInput
        = recordCallback (some fun _ => (0 : Int)) 512 d :=
      stepRun_no_stop d fiveSecondInput rfl
    have hlen1 : (stepRun d fiveSecondInput).1.recordedSamples.length = 512 * (j + 1) := by
      rw [hstep, hspec.1, hl, hm]
      omega
    have hrec1 : (stepRun d fiveSecondInput).1.recording = true := by
      rw [hstep, hspec.2.1, hl, hm, if_pos (by omega)]
      exact hr
    have hmax1 : (stepRun d fiveSecondInput).1.maxSamples = 220500 := by
      rw [hstep, hspec.2.2, hm]
    have hrun : runCallbacks d (List.replicate (k + 1) fiveSecondInput)
        = runCallbacks (stepRun d fiveSecondInput).1 (List.replicate k fiveSecondInput) := by
      rw [List.replicate_succ]
      rfl
    rw [hrun]
    have := ih (j + 1) (by omega) (stepRun d fiveSecondInput).1 hmax1 hrec1 hlen1
    refine ⟨?_, this.2.1, this.2.2⟩
    rw [this.1]
    ring_nf

/-- C5: with the configuration of `main` (`maxSamples = 220500`), a capture
run of 431 consecutive invocations of 512 frames each, the external stop
signal never raised, ends with exactly 220500 recorded samples, and the 431st
(final) invocation returns `paComplete`: invocations 1-430 fit (430 * 512 =
220160 samples), the 431st is clamped to the remaining 340 frames and forces
the flag false. -/
theorem C5_five_second_scenario :
    (runCallbacks (initialData Int mainMaxSamples)
        (List.replicate 431 fiveSecondInput)).recordedSamples.length = 220500
    ∧ (runTrace (initialData Int mainMaxSamples)
        (List.replicate 431 fiveSecondInput)).getLast?
      = some PaCallbackResult.paComplete := by
  have h430 := run_uniform512 430 0 (by norm_num) (initialData Int mainMaxSamples)
    (by rw [show (initialData Int mainMaxSamples).maxSamples = mainMaxSamples from rfl,
        mainMaxSamples_eq])
    rfl
    (by rw [show (initialData Int mainMaxSamples).recordedSamples = ([] : List Int) from rfl]; rfl)
  have hlen430 : (runCallbacks (initialData Int mainMaxSamples)
      (List.replicate 430 fiveSecondInput)).recordedSamples.length = 220160 := by
    rw [h430.1]
  have hspec := recordCallback_spec (some fun _ => (0 : Int)) 512
    (runCallbacks (initialData Int mainMaxSamples) (List.replicate 430 fiveSecondInput))
    (by rw [h430.2.1]; norm_num) (by rw [h430.2.1, two_pow_63_eq]; norm_num)
    (by rw [hlen430, h430.2.1]; norm_num) (by rw [two_pow_63_eq]; norm_num)
  have hstep : stepRun (runCallbacks (initialData Int mainMaxSamples)
        (List.replicate 430 fiveSecondInput)) fiveSecondInput
      = recordCallback (some fun _ => (0 : Int)) 512
        (runCallbacks (initialData Int mainMaxSamples) (List.replicate 430 fiveSecondInput)) :=
    stepRun_no_stop _ fiveSecondInput rfl
  have hrep : List.replicate 431 fiveSecondInput
      = List.replicate 430 fiveSecondInput ++ [fiveSecondInput] := by
    rw [show (431 : Nat) = 430 + 1 from by norm_num, List.replicate_succ']
  have hlenF : (stepRun (runCallbacks (initialData Int mainMaxSamples)
      (List.replicate 430 fiveSecondInput)) fiveSecondInput).1.recordedSamples.length
      = 220500 := by
    rw [hstep, hspec.1, hlen430, h430.2.1]
    omega
  have hrecF : (stepRun (runCallbacks (initialData Int mainMaxSamples)
      (List.replicate 430 fiveSecondInput)) fiveSecondInput).1.recording = false := by
    rw [hstep, hspec.2.1, hlen430, h430.2.1, if_neg (by norm_num)]
  have hresF : (stepRun (runCallbacks (initialData Int mainMaxSamples)
      (List.replicate 430 fiveSecondInput)) fiveSecondInput).2
      = PaCallbackResult.paComplete := by
    rw [hstep]
    rw [hstep] at hrecF
    exact (recordCallback_complete_iff _ _ _).mpr hrecF
  constructor
  · rw [hrep, runCallbacks_append]
    rw [show runCallbacks (runCallbacks (initialData Int mainMaxSamples)
        (List.replicate 430 fiveSecondInput)) [fiveSecondInput]
      = (stepRun (runCallbacks (initialData Int mainMaxSamples)
        (List.replicate 430 fiveSecondInput)) fiveSecondInput).1 from rfl]
    exact hlenF
  · rw [hrep, runTrace_append]
    rw [show runTrace (runCallbacks (initialData Int mainMaxSamples)
        (List.replicate 430 fiveSecondInput)) [fiveSecondInput]
      = [(stepRun (runCallbacks (initialData Int mainMaxSamples)
        (List.replicate 430 fiveSecondInput)) fiveSecondInput).2] from rfl]
    rw [List.getLast?_concat, hresF]

/-- Outcomes of the fallible external calls `main` makes, in program order:
the PortAudio stage errors checked through `handlePaError` (recorder.cpp
lines 79-122), whether `Pa_GetDefaultInputDevice` finds a device (line 82),
whether `sf_open` returns a handle (line 133), the count `sf_write_float`
reports (line 140), and whether `sf_close` returns 0 (line 151). -/
structure MainEnv where
  paInitError : Bool
  hasDefaultInputDevice : Bool
  paOpenStreamError : Bool
  paStartStreamError : Bool
  paStopStreamError : Bool
  paCloseStreamError : Bool
  sfOpenOk : Bool
  framesWritten : Int
  sfCloseOk : Bool

/-- Observable outcome of a run of `main`: the process exit code and whether
the short-write diagnostic of lines 142-145 was printed to stderr. -/
structure MainResult where
  exitCode : Nat
  shortWriteReported : Bool
deriving DecidableEq

/-- The exit-code and diagnostic decision structure of `main` (recorder.cpp
lines 70-158): `handlePaError` calls `exit(1)` on any transport-stage error
(lines 59-67); a missing default input device returns 1 (lines 82-87); an
`sf_open` failure returns 1 (lines 133-137); a mismatch between
`frames_written` and the requested sample count only prints to stderr (lines
142-148); an `sf_close` failure returns 1 (lines 151-154); otherwise `main`
returns 0 (line 157). `recordedCount` is `data.recordedSamples.size()` at
export time. -/
def mainRun (env : MainEnv) (recordedCount : Nat) : MainResult :=
  if env.paInitError then { exitCode := 1, shortWriteReported := false }
  else if !env.hasDefaultInputDevice then { exitCode := 1, shortWriteReported := false }
  else if env.paOpenStreamError then { exitCode := 1, shortWriteReported := false }
  else if env.paStartStreamError then { exitCode := 1, shortWriteReported := false }
  else if env.paStopStreamError then { exitCode := 1, shortWriteReported := false }
  else if env.paCloseStreamError then { exitCode := 1, shortWriteReported := false }
  else if !env.sfOpenOk then { exitCode := 1, shortWriteReported := false }
  else if env.framesWritten ≠ (recordedCount : Int) then
    (if !env.sfCloseOk then { exitCode := 1, shortWriteReported := true }
     else { exitCode := 0, shortWriteReported := true })
  else
    (if !env.sfCloseOk then { exitCode := 1, shortWriteReported := false }
     else { exitCode := 0, shortWriteReported := false })

/-- Full success of a run of `main`: every fallible external call succeeded.
The written sample count is deliberately not part of this predicate. -/
def mainFullSuccess (env : MainEnv) : Prop :=
  env.paInitError = false ∧ env.hasDefaultInputDevice = true
  ∧ env.paOpenStreamError = false ∧ env.paStartStreamError = false
  ∧ env.paStopStreamError = false ∧ env.paCloseStreamError = false
  ∧ env.sfOpenOk = true ∧ env.sfCloseOk = true

/-- C6: the process exit code is 0 exactly on full success and is never
anything but 0 or 1; it is 1 whenever there is no input device, whenever the
destination file cannot be opened, and whenever it cannot be closed; the
written sample count never influences the exit code, and on an otherwise
fully successful run the short-write diagnostic is emitted exactly when the
written count mismatches the requested count. -/
theorem C6_exit_codes (env : MainEnv) (n : Nat) :
    ((mainRun env n).exitCode = 0 ↔ mainFullSuccess env)
    ∧ ((mainRun env n).exitCode = 0 ∨ (mainRun env n).exitCode = 1)
    ∧ (env.hasDefaultInputDevice = false → (mainRun env n).exitCode = 1)
    ∧ (env.sfOpenOk = false → (mainRun env n).exitCode = 1)
    ∧ (env.sfCloseOk = false → (mainRun env n).exitCode = 1)
    ∧ (∀ w : Int, (mainRun { env with framesWritten := w } n).exitCode
        = (mainRun env n).exitCode)
    ∧ (mainFullSuccess env →
        ((mainRun env n).shortWriteReported = true ↔ env.framesWritten ≠ (n : Int))) := by
  rcases env with ⟨i, dev, o, s, st, c, so, w, sc⟩
  by_cases hw : w = (n : Int) <;>
    cases i <;> cases dev <;> cases o <;> cases s <;> cases st <;> cases c <;>
    cases so <;> cases sc <;>
    simp [mainRun, mainFullSuccess, hw, apply_ite]

theorem C6_exit_codes_witness :
    (mainRun ⟨false, true, false, false, false, false, true, 220500, true⟩ 220500).exitCode
      = 0 :=
  (C6_exit_codes ⟨false, true, false, false, false, false, true, 220500, true⟩ 220500).1.mpr
    ⟨rfl, rfl, rfl, rfl, rfl, rfl, rfl, rfl⟩

/-- A `std::vector<float>` together with its current capacity. -/
structure FloatVec (α : Type) where
  elems : List α
  cap : Nat

/-- `push_back`: appends one element and reports whether this push had to
reallocate — a reallocation happens exactly when the vector was already at
capacity, in which case the capacity grows (geometric growth modelled; the
exact policy is irrelevant because the theorems show this branch is never
taken during capture). -/
def FloatVec.pushBack {α : Type} (v : FloatVec α) (a : α) : FloatVec α × Bool :=
  if v.elems.length < v.cap then ({ elems := v.elems ++ [a], cap := v.cap }, false)
  else ({ elems := v.elems ++ [a], cap := Nat.max (2 * v.cap) (v.elems.length + 1) }, true)

/-- A sequence of `push_back` calls; the flag records whether any of them
reallocated. -/
def FloatVec.pushMany {α : Type} (v : FloatVec α) : List α → FloatVec α × Bool
  | [] => (v, false)
  | a :: as =>
    let p := v.pushBack a
    let q := p.1.pushMany as
    (q.1, p.2 || q.2)

/-- The `RecordData` struct with the vector capacity kept explicit. -/
structure RecordDataVec (α : Type) where
  recordedSamples : FloatVec α
  recording : Bool
  maxSamples : Nat

/-- Forgetting the capacity recovers the plain state the callback logic
reads. -/
def RecordDataVec.asRecordData {α : Type} (d : RecordDataVec α) : RecordData α :=
  { recordedSamples := d.recordedSamples.elems, recording := d.recording,
    maxSamples := d.maxSamples }

/-- `recordCallback` instrumented with the vector capacity: identical control
flow (the callback never reads the capacity), with each appended sample going
through `push_back`; the middle component reports whether any push of this
invocation reallocated. -/
def recordCallbackVec {α : Type} [Zero α] (inputBuffer : Option (Nat → α))
    (framesPerBuffer : Nat) (data : RecordDataVec α) :
    RecordDataVec α × Bool × PaCallbackResult :=
  let stillRecording :=
    if limitHit data.asRecordData framesPerBuffer then false else data.recording
  let p := data.recordedSamples.pushMany
    (capturedFrames inputBuffer (framesToRecord data.asRecordData framesPerBuffer))
  ({ recordedSamples := p.1, recording := stillRecording, maxSamples := data.maxSamples },
   p.2,
   if stillRecording then PaCallbackResult.paContinue else PaCallbackResult.paComplete)

/-- External stop signal on the instrumented state. -/
def applyStopVec {α : Type} (c : CallbackInput α) (d : RecordDataVec α) : RecordDataVec α :=
  if c.stopSignal then { d with recording := false } else d

/-- One step of an instrumented capture run. -/
def stepRunVec {α : Type} [Zero α] (d : RecordDataVec α) (c : CallbackInput α) :
    RecordDataVec α × Bool × PaCallbackResult :=
  recordCallbackVec c.inputBuffer c.framesPerBuffer (applyStopVec c d)

/-- An instrumented capture run: final state, plus whether any push of any
invocation reallocated. -/
def runVec {α : Type} [Zero α] (d : RecordDataVec α) :
    List (CallbackInput α) → RecordDataVec α × Bool
  | [] => (d, false)
  | c :: cs =>
    let p := stepRunVec d c
    let q := runVec p.1 cs
    (q.1, p.2.1 || q.2)

/-- The state `main` starts the stream with, capacity included: the
`reserve(maxSamples)` on recorder.cpp line 77 makes the empty vector hold
capacity `maxSamples` before the transport starts. -/
def initialDataVec (α : Type) (maxSamples : Nat) : RecordDataVec α :=
  { recordedSamples := { elems := [], cap := maxSamples }, recording := true,
    maxSamples := maxSamples }

theorem pushMany_no_realloc {α : Type} :
    ∀ (xs : List α) (v : FloatVec α), v.elems.length + xs.length ≤ v.cap →
      v.pushMany xs = ({ elems := v.elems ++ xs, cap := v.cap }, false) := by
  intro xs
  induction xs with
  | nil =>
    intro v _
    rw [show v.pushMany [] = (v, false) from rfl]
    rcases v with ⟨e, k⟩
    simp
  | cons a as ih =>
    intro v h
    have hlt : v.elems.length < v.cap := by
      rw [List.length_cons] at h
      omega
    have hpush : v.pushBack a = ({ elems := v.elems ++ [a], cap := v.cap }, false) := by
      unfold FloatVec.pushBack
      rw [if_pos hlt]
    have hnext : ({ elems := v.elems ++ [a], cap := v.cap } : FloatVec α).pushMany as
        = ({ elems := (v.elems ++ [a]) ++ as, cap := v.cap }, false) := by
      apply ih
      rw [List.length_cons] at h
      simp
      omega
    rw [show v.pushMany (a :: as)
        = (((v.pushBack a).1.pushMany as).1,
           (v.pushBack a).2 || ((v.pushBack a).1.pushMany as).2) from rfl,
      hpush, hnext]
    simp

theorem recordCallbackVec_realloc {α : Type} [Zero α] (i : Option (Nat → α))
    (fpb : Nat) (d : RecordDataVec α) :
    (recordCallbackVec i fpb d).2.1
      = (d.recordedSamples.pushMany
          (capturedFrames i (framesToRecord d.asRecordData fpb))).2 := rfl

theorem recordCallbackVec_fst_samples {α : Type} [Zero α] (i : Option (Nat → α))
    (fpb : Nat) (d : RecordDataVec α) :
    (recordCallbackVec i fpb d).1.recordedSamples
      = (d.recordedSamples.pushMany
          (capturedFrames i (framesToRecord d.asRecordData fpb))).1 := rfl

theorem recordCallbackVec_fst_maxSamples {α : Type} [Zero α] (i : Option (Nat → α))
    (fpb : Nat) (d : RecordDataVec α) :
    (recordCallbackVec i fpb d).1.maxSamples = d.maxSamples := rfl

theorem recordCallbackVec_spec {α : Type} [Zero α] (i : Option (Nat → α))
    (fpb : Nat) (d : RecordDataVec α)
    (hcap : d.recordedSamples.cap = d.maxSamples)
    (hmax0 : 0 < d.maxSamples) (hmax : d.maxSamples ≤ 2 ^ 63)
    (hlen : d.recordedSamples.elems.length ≤ d.maxSamples) (hfpb : fpb < 2 ^ 63) :
    (recordCallbackVec i fpb d).2.1 = false
    ∧ (recordCallbackVec i fpb d).1.recordedSamples.cap = d.maxSamples
    ∧ (recordCallbackVec i fpb d).1.recordedSamples.elems.length
        = min (d.recordedSamples.elems.length + fpb) d.maxSamples
    ∧ (recordCallbackVec i fpb d).1.maxSamples = d.maxSamples := by
  have hplain : d.asRecordData.recordedSamples = d.recordedSamples.elems := rfl
  have hpm : d.asRecordData.maxSamples = d.maxSamples := rfl
  have hftr : framesToRecord d.asRecordData fpb
      = min fpb (d.maxSamples - d.recordedSamples.elems.length) := by
    rw [framesToRecord_eq d.asRecordData fpb (by rw [hpm]; exact hmax0)
      (by rw [hpm]; exact hmax) (by rw [hplain, hpm]; exact hlen) hfpb, hplain, hpm]
  have hfits : d.recordedSamples.elems.length
      + (capturedFrames i (framesToRecord d.asRecordData fpb)).length
      ≤ d.recordedSamples.cap := by
    rw [capturedFrames_length, hftr, hcap]
    omega
  have hpush := pushMany_no_realloc
    (capturedFrames i (framesToRecord d.asRecordData fpb)) d.recordedSamples hfits
  have hpushE : (d.recordedSamples.pushMany
      (capturedFrames i (framesToRecord d.asRecordData fpb))).1.elems
      = d.recordedSamples.elems
        ++ capturedFrames i (framesToRecord d.asRecordData fpb) := by
    rw [hpush]
  have hpushC : (d.recordedSamples.pushMany
      (capturedFrames i (framesToRecord d.asRecordData fpb))).1.cap
      = d.recordedSamples.cap := by
    rw [hpush]
  have hpushR : (d.recordedSamples.pushMany
      (capturedFrames i (framesToRecord d.asRecordData fpb))).2 = false := by
    rw [hpush]
  refine ⟨?_, ?_, ?_, recordCallbackVec_fst_maxSamples i fpb d⟩
  · rw [recordCallbackVec_realloc, hpushR]
  · rw [recordCallbackVec_fst_samples, hpushC, hcap]
  · rw [recordCallbackVec_fst_samples, hpushE, List.length_append,
      capturedFrames_length, hftr]
    omega

theorem applyStopVec_recordedSamples {α : Type} (c : CallbackInput α)
    (d : RecordDataVec α) : (applyStopVec c d).recordedSamples = d.recordedSamples := by
  unfold applyStopVec; split <;> rfl

theorem applyStopVec_maxSamples {α : Type} (c : CallbackInput α)
    (d : RecordDataVec α) : (applyStopVec c d).maxSamples = d.maxSamples := by
  unfold applyStopVec; split <;> rfl

theorem runVec_no_realloc {α : Type} [Zero α] (inputs : List (CallbackInput α)) :
    ∀ d : RecordDataVec α, d.recordedSamples.cap = d.maxSamples →
      0 < d.maxSamples → d.maxSamples ≤ 2 ^ 63 →
      d.recordedSamples.elems.length ≤ d.maxSamples →
      (∀ c ∈ inputs, c.framesPerBuffer < 2 ^ 63) →
      (runVec d inputs).2 = false
      ∧ (runVec d inputs).1.recordedSamples.cap = d.maxSamples := by
  induction inputs with
  | nil => intro d hcap _ _ _ _; exact ⟨rfl, hcap⟩
  | cons c cs ih =>
    intro d hcap h0 h1 h2 hb
    have hsr := applyStopVec_recordedSamples c d
    have hsm := applyStopVec_maxSamples c d
    have hspec := recordCallbackVec_spec c.inputBuffer c.framesPerBuffer (applyStopVec c d)
      (by rw [hsr, hsm]; exact hcap) (by rw [hsm]; exact h0) (by rw [hsm]; exact h1)
      (by rw [hsr, hsm]; exact h2) (hb c (List.mem_cons_self c cs))
    have hstep0 : (stepRunVec d c).2.1 = false := hspec.1
    have hstepcap : (stepRunVec d c).1.recordedSamples.cap = d.maxSamples := by
      have := hspec.2.1
      rw [hsm] at this
      exact this
    have hstepmax : (stepRunVec d c).1.maxSamples = d.maxSamples := by
      have := recordCallbackVec_fst_maxSamples c.inputBuffer c.framesPerBuffer
        (applyStopVec c d)
      rw [hsm] at this
      exact this
    have hsteplen : (stepRunVec d c).1.recordedSamples.elems.length ≤ d.maxSamples := by
      have := hspec.2.2.1
      rw [hsm] at this
      show (recordCallbackVec c.inputBuffer c.framesPerBuffer
        (applyStopVec c d)).1.recordedSamples.elems.length ≤ d.maxSamples
      rw [this]
      omega
    have hrest := ih (stepRunVec d c).1 (by rw [hstepcap, hstepmax])
      (by rw [hstepmax]; exact h0) (by rw [hstepmax]; exact h1)
      (by rw [hstepmax]; exact hsteplen)
      (fun c' hc' => hb c' (List.mem_cons_of_mem c hc'))
    have hrun : runVec d (c :: cs)
        = ((runVec (stepRunVec d c).1 cs).1,
           (stepRunVec d c).2.1 || (runVec (stepRunVec d c).1 cs).2) := rfl
    rw [hrun]
    refine ⟨?_, ?_⟩
    · rw [show ((runVec (stepRunVec d c).1 cs).1,
          (stepRunVec d c).2.1 || (runVec (stepRunVec d c).1 cs).2).2
          = ((stepRunVec d c).2.1 || (runVec (stepRunVec d c).1 cs).2) from rfl,
        hstep0, hrest.1]
      rfl
    · rw [show ((runVec (stepRunVec d c).1 cs).1,
          (stepRunVec d c).2.1 || (runVec (stepRunVec d c).1 cs).2).1
          = (runVec (stepRunVec d c).1 cs).1 from rfl,
        hrest.2, hstepmax]

/-- C9: with the buffer capacity pre-reserved to `maxSamples` by `main`
(line 77) and the buffer starting empty, every `push_back` the callback
performs during a capture run happens while the length is strictly below the
capacity, so no invocation ever reallocates the sample vector and its
capacity stays `maxSamples` forever. -/
theorem C9_no_reallocation {α : Type} [Zero α] (inputs : List (CallbackInput α))
    (hb : ∀ c ∈ inputs, c.framesPerBuffer < 2 ^ 63) :
    (runVec (initialDataVec α mainMaxSamples) inputs).2 = false
    ∧ (runVec (initialDataVec α mainMaxSamples) inputs).1.recordedSamples.cap
        = mainMaxSamples := by
  have h := runVec_no_realloc inputs (initialDataVec α mainMaxSamples)
    rfl
    (by rw [show (initialDataVec α mainMaxSamples).maxSamples = mainMaxSamples from rfl,
        mainMaxSamples_eq]; norm_num)
    (by rw [show (initialDataVec α mainMaxSamples).maxSamples = mainMaxSamples from rfl,
        mainMaxSamples_eq, two_pow_63_eq]; norm_num)
    (by rw [show (initialDataVec α mainMaxSamples).recordedSamples.elems
        = ([] : List α) from rfl]; simp)
    hb
  exact h

theorem C9_no_reallocation_witness :
    (runVec (initialDataVec Int mainMaxSamples) [⟨false, none, 512⟩]).2 = false :=
  (C9_no_reallocation [⟨false, none, 512⟩]
    (by
      intro c hc
      rcases List.mem_cons.mp hc with h | h
      · subst h; decide
      · exact absurd h (by simp))).1

end Recorder
